import Mathlib

/-!
# gogtmetrix: the submit / poll / wait workflow of `main.go`

A shallow embedding of `Client.Test`, `Client.PollResults`,
`Client.WaitForResults` and `Client.TestAndWaitForResults`.

The Go code talks to the outside world through `net/http`, `io/ioutil`,
`encoding/json` and `time`.  Those library calls are not part of the
repository; they are collected in a `World` record that every operation takes
as a parameter.  The effects of a call (the clock, the HTTP exchanges made, the
calls and sleeps performed) are threaded explicitly through a state `St`.
Logging (`log.Println`, `fmt.Println`) has no influence on any returned value
and is left out.
-/

namespace Gogtmetrix

/-! ## Data model -/

/-- TestRefference can be used to poll for results of a queued website test. -/
structure TestRefference where
  TestID : String
  PollStateURL : String
  CreditsLeft : Int
  Error : String
deriving DecidableEq

/-- The results of a test to be found in the TestModel struct. -/
structure TestResults where
  ReportURL : String
  PagespeedScore : Int
  YslowScore : Int
  HtmlBytes : Int
  HtmlLoadTime : Int
  PageBytes : Int
  PageLoadTime : Int
  PageElements : Int
  RedirectDuration : Int
  ConnectDuration : Int
  BackendDuration : Int
  FirstPaintTime : Int
  FirstContentfulPaintTime : Int
  DomInteractiveTime : Int
  DomContentLoadedTime : Int
  DomContentLoadedDuration : Int
  OnloadTime : Int
  OnloadDuration : Int
  FullyLoadedTime : Int
  RUMSpeedIndex : Int
deriving DecidableEq

/-- Additional resources for a successful test. -/
structure TestResources where
  Screenshot : String
  HAR : String
  Pagespeed : String
  PagespeedFiles : String
  Yslow : String
  ReportPDF : String
  ReportPDFFull : String
  Video : String
  Filmstrip : String
deriving DecidableEq

/-- The model holding results of a test, or the error returned. -/
structure TestModel where
  State : String
  Error : String
  Results : TestResults
  Resources : TestResources
deriving DecidableEq

/-- The Go zero value `TestRefference{}`. -/
def TestRefference.zero : TestRefference :=
  { TestID := "", PollStateURL := "", CreditsLeft := 0, Error := "" }

/-- The Go zero value `TestResults{}`. -/
def TestResults.zero : TestResults :=
  { ReportURL := "", PagespeedScore := 0, YslowScore := 0, HtmlBytes := 0,
    HtmlLoadTime := 0, PageBytes := 0, PageLoadTime := 0, PageElements := 0,
    RedirectDuration := 0, ConnectDuration := 0, BackendDuration := 0,
    FirstPaintTime := 0, FirstContentfulPaintTime := 0, DomInteractiveTime := 0,
    DomContentLoadedTime := 0, DomContentLoadedDuration := 0, OnloadTime := 0,
    OnloadDuration := 0, FullyLoadedTime := 0, RUMSpeedIndex := 0 }

/-- The Go zero value `TestResources{}`. -/
def TestResources.zero : TestResources :=
  { Screenshot := "", HAR := "", Pagespeed := "", PagespeedFiles := "", Yslow := "",
    ReportPDF := "", ReportPDFFull := "", Video := "", Filmstrip := "" }

/-- The Go zero value `TestModel{}`. -/
def TestModel.zero : TestModel :=
  { State := "", Error := "", Results := TestResults.zero, Resources := TestResources.zero }

/-- Base url for GTmetrix. -/
def base_url : String := "https://gtmetrix.com/api/0.1/"

/-- An authenticated client instance. -/
structure Client where
  Username : String
  Password : String
  baseURL : String
deriving DecidableEq

/-- Use your username and password to get an authenticated client instance. -/
def GetClient (username password : String) : Client :=
  { Username := username, Password := password, baseURL := base_url }

/-! ## Errors, requests and the outside world -/

/-- The `*url.Error` that `http.Client.Do` returns when a request cannot be sent. -/
structure UrlError where
  Op : String
  URL : String
  Err : String
deriving DecidableEq

/-- The Go `error` values that the operations hand to their callers: the
`*url.Error` of a failed `Do`, and the `*errors.errorString` made by
`errors.New s`, whose message is `s`.  A nil error is `none : Option GoError`. -/
inductive GoError where
  | urlError (e : UrlError)
  | errorString (s : String)
deriving DecidableEq

/-- An `*http.Request` as the code builds it: method, URL, body, and the basic
auth credentials set on it by `SetBasicAuth`. -/
structure Request where
  Method : String
  URL : String
  Body : String
  Username : String
  Password : String
deriving DecidableEq

/-- An `*http.Response` as far as the code looks at it: what
`ioutil.ReadAll(resp.Body)` yields, namely the bytes read and the read error
(`none` when the body was read to its end). -/
structure Response where
  body : String
  readErr : Option String
deriving DecidableEq

/-- One call of `httpClient.Do`: how long the exchange took on the clock
(nanoseconds, request and reading of the body included) and its result. -/
structure Exchange where
  took : Nat
  result : Except UrlError Response

/-- The library calls the code depends on.  `Do n req` is the `n`-th call of
`httpClient.Do` made so far (counted from 0), so the remote service may answer
the same request differently over time. -/
structure World where
  /-- Whether `http.NewRequest(method, url, body)` returns a non-nil request. -/
  newRequest : String → String → Bool
  /-- The value of `form.Encode()` for the form with the single key `url`. -/
  formEncode : String → String
  /-- The `n`-th call of `httpClient.Do`. -/
  Do : Nat → Request → Exchange
  /-- The function `checkValid` of `encoding/json`: is the input well-formed JSON? -/
  checkValid : String → Bool
  /-- What `decodeState.unmarshal` leaves in a `*TestRefference` for well-formed input. -/
  decodeRefference : String → TestRefference → TestRefference
  /-- What `decodeState.unmarshal` leaves in a `*TestModel` for well-formed input. -/
  decodeModel : String → TestModel → TestModel

/-- The function `json.Unmarshal(data, v)`, whose returned error the code
discards: the input is validated first, and `v` is only written to when the
input is well-formed JSON. -/
def Unmarshal {α : Type} (checkValid : String → Bool) (decode : String → α → α)
    (data : String) (v : α) : α :=
  if checkValid data then decode data v else v

/-- The function `stringContainsCTLByte` of `net/url`: `url.Parse`, and with it
`http.NewRequest`, fails on a string that holds an ASCII control character. -/
def stringContainsCTLByte (s : String) : Bool :=
  s.toList.any fun ch => decide (ch.toNat < 32) || decide (ch.toNat = 127)

/-! ## State: clock and trace -/

/-- What the operations do, in order. -/
inductive Event where
  | callTest (siteURL : String)
  | callPollResults (testID : String)
  | callWaitForResults (testID : String)
  | httpDo (req : Request)
  | readAll
  | sleep (d : Nat)
deriving DecidableEq

/-- Is the event a call of `PollResults`? -/
def Event.isPoll : Event → Bool
  | .callPollResults _ => true
  | _ => false

/-- Is the event a call of `WaitForResults`? -/
def Event.isWait : Event → Bool
  | .callWaitForResults _ => true
  | _ => false

/-- Is the event a call of `time.Sleep`? -/
def Event.isSleep : Event → Bool
  | .sleep _ => true
  | _ => false

/-- The state threaded through the operations: the clock (nanoseconds), the
number of `httpClient.Do` calls made so far, and the events so far, oldest
first. -/
structure St where
  clock : Nat
  sends : Nat
  trace : List Event
deriving DecidableEq

/-- The state at program start. -/
def St.init : St := { clock := 0, sends := 0, trace := [] }

/-- Append an event to the trace. -/
def St.record (s : St) (e : Event) : St :=
  { s with trace := s.trace ++ [e] }

/-- Number of `PollResults` calls in the trace. -/
def St.polls (s : St) : Nat := s.trace.countP Event.isPoll

/-- Number of `WaitForResults` calls in the trace. -/
def St.waits (s : St) : Nat := s.trace.countP Event.isWait

/-- Number of `time.Sleep` calls in the trace. -/
def St.sleeps (s : St) : Nat := s.trace.countP Event.isSleep

/-- How a call ends: it returns a value and an error (`none` for nil), or it
panics on a nil pointer dereference. -/
inductive Outcome (α : Type) where
  | returned (value : α) (err : Option GoError) (st : St)
  | panicked (st : St)
deriving DecidableEq

/-- The state in which a call ended. -/
def Outcome.st {α : Type} : Outcome α → St
  | .returned _ _ s => s
  | .panicked s => s

/-! ## Time -/

/-- The constant `time.Second`, in nanoseconds. -/
def Second : Nat := 1000000000

/-- The constant `time.Minute`, in nanoseconds. -/
def Minute : Nat := 60 * Second

/-- The largest `time.Duration` (an `int64`). -/
def maxDuration : Nat := 2 ^ 63 - 1

/-- The function `time.Since(start)` read at clock value `now`: the elapsed
time, saturated at the largest duration. -/
def Since (start now : Nat) : Nat := min (now - start) maxDuration

/-- The call `time.Sleep(d)`: the clock advances by `d`. -/
def Sleep (d : Nat) (s : St) : St :=
  { (s.record (.sleep d)) with clock := s.clock + d }

/-- The call `httpClient.Do(req)`: the exchange is recorded and the clock
advances by the time it took. -/
def doExchange (w : World) (req : Request) (s : St) : Exchange × St :=
  let x := w.Do s.sends req
  (x, { clock := s.clock + x.took, sends := s.sends + 1, trace := s.trace ++ [.httpDo req] })

/-! ## The operations -/

/-- The request `Test` sends for a site URL. -/
def testRequest (w : World) (c : Client) (siteURL : String) : Request :=
  { Method := "POST", URL := c.baseURL ++ "test", Body := w.formEncode siteURL,
    Username := c.Username, Password := c.Password }

/-- Sends a URL of a website to GTmetrix to be tested.  The error of
`http.NewRequest` is not looked at, so a nil request reaches `SetBasicAuth`; the
error of `ioutil.ReadAll` and the error of `json.Unmarshal` are not looked at
either. -/
def Client.Test (w : World) (c : Client) (siteURL : String) (s : St) : Outcome TestRefference :=
  let s0 := s.record (.callTest siteURL)
  if w.newRequest "POST" (c.baseURL ++ "test") then
    let (x, s1) := doExchange w (testRequest w c siteURL) s0
    match x.result with
    | .error e => .returned TestRefference.zero (some (.urlError e)) s1
    | .ok resp =>
      let s2 := s1.record .readAll
      let testRefference := Unmarshal w.checkValid w.decodeRefference resp.body TestRefference.zero
      if testRefference.Error ≠ "" then
        .returned testRefference (some (.errorString testRefference.Error)) s2
      else
        .returned testRefference none s2
  else
    .panicked s0

/-- The request `PollResults` sends for a test reference. -/
def pollRequest (c : Client) (tr : TestRefference) : Request :=
  { Method := "GET", URL := c.baseURL ++ "test/" ++ tr.TestID, Body := "",
    Username := c.Username, Password := c.Password }

/-- Try to fetch results of a given test. -/
def Client.PollResults (w : World) (c : Client) (tr : TestRefference) (s : St) : Outcome TestModel :=
  let s0 := s.record (.callPollResults tr.TestID)
  if w.newRequest "GET" (c.baseURL ++ "test/" ++ tr.TestID) then
    let (x, s1) := doExchange w (pollRequest c tr) s0
    match x.result with
    | .error e => .returned TestModel.zero (some (.urlError e)) s1
    | .ok resp =>
      let s2 := s1.record .readAll
      let testModel := Unmarshal w.checkValid w.decodeModel resp.body TestModel.zero
      .returned testModel none s2
  else
    .panicked s0

/-- The error `WaitForResults` gives up with. -/
def timeoutError : GoError := .errorString "Waited for results for too long. Gave up."

/-- The `for` loop of `WaitForResults`, started at clock value `startTime`.
Each evaluation of the loop condition uses one unit of fuel; `none` means the
fuel ran out. -/
def waitLoop (w : World) (c : Client) (tr : TestRefference) (startTime : Nat) :
    Nat → St → Option (Outcome TestModel)
  | 0, _ => none
  | fuel + 1, s =>
    if Since startTime s.clock < Minute * 5 then
      match c.PollResults w tr s with
      | .panicked s1 => some (.panicked s1)
      | .returned result err s1 =>
        match err with
        | some e => some (.returned result (some e) s1)
        | none =>
          if result.State == "completed" || result.State == "error" then
            some (.returned result none s1)
          else
            waitLoop w c tr startTime fuel (Sleep (1 * Second) s1)
    else
      some (.returned TestModel.zero (some timeoutError) s)

/-- Fuel that always suffices: every pass sleeps one second, so the condition
is evaluated at most 301 times within five minutes. -/
def waitFuel : Nat := 301

/-- Automatically polls the test results in one second intervals until results
are ready.  Gives up after five minutes. -/
def Client.WaitForResults (w : World) (c : Client) (tr : TestRefference) (s : St) :
    Option (Outcome TestModel) :=
  let s0 := s.record (.callWaitForResults tr.TestID)
  waitLoop w c tr s0.clock waitFuel s0

/-- Accepts a website URL and returns a finished test. -/
def Client.TestAndWaitForResults (w : World) (c : Client) (url : String) (s : St) :
    Option (Outcome TestModel) :=
  match c.Test w url s with
  | .panicked s1 => some (.panicked s1)
  | .returned tr err s1 =>
    match err with
    | some e => some (.returned TestModel.zero (some e) s1)
    | none => c.WaitForResults w tr s1

/-! ## Runs of the wait loop -/

/-- One pass of the loop body that does not leave the loop: a poll, then the
one-second sleep. -/
def pollThenSleep (w : World) (c : Client) (tr : TestRefference) (s : St) : St :=
  Sleep (1 * Second) (c.PollResults w tr s).st

/-- The state in which poll number `i + 1` of `c.WaitForResults w tr s` starts,
provided the loop gets that far: `i` passes of poll and sleep after the call. -/
def pollStart (w : World) (c : Client) (tr : TestRefference) (s : St) (i : Nat) : St :=
  (pollThenSleep w c tr)^[i] (s.record (.callWaitForResults tr.TestID))

/-! ## Example worlds -/

/-- A decoder for examples: the body is taken as the state of the snapshot. -/
def stateFromBody (body : String) (m : TestModel) : TestModel :=
  { m with State := body }

/-- A decoder for examples: a body that starts with `E` carries the text of a
remote error after it, any other body is the id of the queued test. -/
def refFromBody (body : String) (r : TestRefference) : TestRefference :=
  match body.toList with
  | 'E' :: rest => { r with Error := String.mk rest }
  | _ => { r with TestID := body }

/-- A world whose `n`-th exchange is given by `answer n`; every request can be
built unless its URL holds a control character, and every body is well-formed
unless it is empty. -/
def scriptedWorld (answer : Nat → Exchange) : World :=
  { newRequest := fun _ url => !stringContainsCTLByte url
    formEncode := fun siteURL => "url=" ++ siteURL
    Do := fun n _ => answer n
    checkValid := fun body => body != ""
    decodeRefference := refFromBody
    decodeModel := stateFromBody }

/-- An exchange that succeeds after `took` nanoseconds with the given body. -/
def answered (took : Nat) (body : String) : Exchange :=
  { took := took, result := .ok { body := body, readErr := none } }

/-- An exchange in which the request cannot be sent. -/
def refused (took : Nat) : Exchange :=
  { took := took, result := .error { Op := "Get", URL := "", Err := "connection refused" } }

/-- An exchange whose body cannot be read to its end. -/
def truncated (took : Nat) (body : String) : Exchange :=
  { took := took, result := .ok { body := body, readErr := some "unexpected EOF" } }

/-- A client as `GetClient` makes it. -/
def exampleClient : Client := GetClient "user" "key"

/-- A reference as a successful submission yields it. -/
def exampleRef : TestRefference :=
  { TestID := "abc", PollStateURL := "", CreditsLeft := 3, Error := "" }

/-- Two polls find the test in progress, the third finds it completed. -/
def twoPendingWorld : World :=
  scriptedWorld fun n => if n < 2 then answered 5 "processing" else answered 7 "completed"

/-- The first poll finds the test queued, the second cannot be sent. -/
def failingWorld : World :=
  scriptedWorld fun n => if n < 1 then answered 5 "queued" else refused 3

/-- Every exchange takes the same time and finds the test in progress. -/
def processingWorld (took : Nat) : World :=
  scriptedWorld fun _ => answered took "processing"

/-- Every exchange takes 400 seconds and finds the test in progress. -/
def slowWorld : World := processingWorld (400 * Second)

/-- Every exchange is answered with the text of a remote error. -/
def quotaWorld : World :=
  scriptedWorld fun _ => answered 5 "Eno credits left"

/-- The submission is accepted, the first poll finds the test in progress and
the second finds it completed. -/
def acceptedWorld : World :=
  scriptedWorld fun n =>
    if n < 1 then answered 5 "abc" else if n < 2 then answered 5 "processing"
    else answered 7 "completed"

/-- Every exchange is answered with an empty body. -/
def emptyBodyWorld : World :=
  scriptedWorld fun _ => answered 5 ""

/-- Every exchange breaks off while the body is read. -/
def truncatedWorld : World :=
  scriptedWorld fun _ => truncated 5 ""

/-! ## Basic facts -/

/-- The loop condition compares the plain elapsed time: five minutes are far
below the saturation point of a duration. -/
theorem Since_lt_iff (start now : Nat) :
    Since start now < Minute * 5 ↔ now - start < Minute * 5 := by
  unfold Since
  have h : Minute * 5 < maxDuration := by decide
  constructor
  · intro h1
    rcases Nat.lt_or_ge (now - start) maxDuration with h2 | h2
    · rwa [Nat.min_eq_left (Nat.le_of_lt h2)] at h1
    · rw [Nat.min_eq_right h2] at h1
      omega
  · intro h1
    exact lt_of_le_of_lt (Nat.min_le_left _ _) h1

/-- What a poll does to the state, however it ends: the clock does not go
back, one call of `PollResults` is recorded and no sleep. -/
theorem PollResults_st (w : World) (c : Client) (tr : TestRefference) (s : St) :
    s.clock ≤ (c.PollResults w tr s).st.clock ∧
    (c.PollResults w tr s).st.polls = s.polls + 1 ∧
    (c.PollResults w tr s).st.sleeps = s.sleeps := by
  unfold Client.PollResults doExchange
  by_cases hreq : w.newRequest "GET" (c.baseURL ++ "test/" ++ tr.TestID) = true
  · cases hres : (w.Do s.sends (pollRequest c tr)).result <;>
      simp [hreq, hres, Outcome.st, St.record, St.polls, St.sleeps, List.countP_append,
        Event.isPoll, Event.isSleep]
  · simp [hreq, Outcome.st, St.record, St.polls, St.sleeps, List.countP_append,
      Event.isPoll, Event.isSleep]

/-- A poll that returns has made exactly one exchange, the clock has advanced
by the time that exchange took, and its error, if any, is a transport error. -/
theorem PollResults_returned (w : World) (c : Client) (tr : TestRefference) (s t : St)
    (m : TestModel) (err : Option GoError)
    (h : c.PollResults w tr s = .returned m err t) :
    t.clock = s.clock + (w.Do s.sends (pollRequest c tr)).took ∧
    t.sends = s.sends + 1 ∧ err ≠ some timeoutError := by
  unfold Client.PollResults doExchange at h
  by_cases hreq : w.newRequest "GET" (c.baseURL ++ "test/" ++ tr.TestID) = true
  · cases hres : (w.Do s.sends (pollRequest c tr)).result <;>
      simp [hreq, hres, St.record] at h <;>
      obtain ⟨-, h2, h3⟩ := h <;> subst h2 <;> subst h3 <;> simp [timeoutError]
  · simp [hreq] at h

/-- One pass of poll and sleep: a second or more goes by, one poll and one
sleep are recorded. -/
theorem pollThenSleep_st (w : World) (c : Client) (tr : TestRefference) (s : St) :
    s.clock + Second ≤ (pollThenSleep w c tr s).clock ∧
    (pollThenSleep w c tr s).polls = s.polls + 1 ∧
    (pollThenSleep w c tr s).sleeps = s.sleeps + 1 := by
  obtain ⟨h1, h2, h3⟩ := PollResults_st w c tr s
  refine ⟨?_, ?_, ?_⟩
  · simp only [pollThenSleep, Sleep, one_mul]
    omega
  · simp only [pollThenSleep, Sleep, St.record, St.polls] at h2 ⊢
    rw [List.countP_append, h2]
    simp [Event.isPoll]
  · simp only [pollThenSleep, Sleep, St.record, St.sleeps] at h3 ⊢
    rw [List.countP_append, h3]
    simp [Event.isSleep]

/-- After `n` passes of poll and sleep, `n` seconds or more have gone by and
`n` polls and `n` sleeps have been recorded. -/
theorem rounds_st (w : World) (c : Client) (tr : TestRefference) (n : Nat) (s : St) :
    s.clock + n * Second ≤ ((pollThenSleep w c tr)^[n] s).clock ∧
    ((pollThenSleep w c tr)^[n] s).polls = s.polls + n ∧
    ((pollThenSleep w c tr)^[n] s).sleeps = s.sleeps + n := by
  induction n generalizing s with
  | zero => simp
  | succ n ih =>
    obtain ⟨h1, h2, h3⟩ := pollThenSleep_st w c tr s
    obtain ⟨k1, k2, k3⟩ := ih (pollThenSleep w c tr s)
    rw [Function.iterate_succ_apply]
    refine ⟨?_, ?_, ?_⟩
    · rw [Nat.succ_mul]
      omega
    · omega
    · omega

/-- The clock at the start of a later poll is not behind that of an earlier one. -/
theorem rounds_clock_mono (w : World) (c : Client) (tr : TestRefference) (s : St)
    (i k : Nat) (h : i ≤ k) :
    ((pollThenSleep w c tr)^[i] s).clock ≤ ((pollThenSleep w c tr)^[k] s).clock := by
  obtain ⟨d, rfl⟩ := Nat.exists_eq_add_of_le h
  rw [Nat.add_comm, Function.iterate_add_apply]
  have := (rounds_st w c tr d ((pollThenSleep w c tr)^[i] s)).1
  omega

/-- The loop gives up as soon as its condition fails. -/
theorem waitLoop_exit (w : World) (c : Client) (tr : TestRefference) (start fuel : Nat)
    (s : St) (h : ¬ Since start s.clock < Minute * 5) :
    waitLoop w c tr start (fuel + 1) s = some (.returned TestModel.zero (some timeoutError) s) := by
  simp [waitLoop, h]

/-- A pass whose poll succeeds with a non-terminal state goes on with the next
pass after the sleep. -/
theorem waitLoop_continue (w : World) (c : Client) (tr : TestRefference) (start fuel : Nat)
    (s t : St) (m : TestModel) (h : Since start s.clock < Minute * 5)
    (hp : c.PollResults w tr s = .returned m none t)
    (h1 : m.State ≠ "completed") (h2 : m.State ≠ "error") :
    waitLoop w c tr start (fuel + 1) s = waitLoop w c tr start fuel (pollThenSleep w c tr s) := by
  simp [waitLoop, h, hp, h1, h2, pollThenSleep, Outcome.st]

/-- A pass whose poll succeeds with a terminal state returns that snapshot. -/
theorem waitLoop_done (w : World) (c : Client) (tr : TestRefference) (start fuel : Nat)
    (s t : St) (m : TestModel) (h : Since start s.clock < Minute * 5)
    (hp : c.PollResults w tr s = .returned m none t)
    (hm : m.State = "completed" ∨ m.State = "error") :
    waitLoop w c tr start (fuel + 1) s = some (.returned m none t) := by
  simp [waitLoop, h, hp, hm]

/-- A pass whose poll fails returns what the poll returned. -/
theorem waitLoop_fail (w : World) (c : Client) (tr : TestRefference) (start fuel : Nat)
    (s t : St) (m : TestModel) (e : GoError) (h : Since start s.clock < Minute * 5)
    (hp : c.PollResults w tr s = .returned m (some e) t) :
    waitLoop w c tr start (fuel + 1) s = some (.returned m (some e) t) := by
  simp [waitLoop, h, hp]

/-- If the first `n` passes all poll a non-terminal snapshot within the budget,
the loop is, `n` passes later, where `n` rounds of poll and sleep lead. -/
theorem waitLoop_rounds (w : World) (c : Client) (tr : TestRefference) (start : Nat)
    (n : Nat) : ∀ (fuel : Nat) (s : St),
    (∀ i, i < n → Since start ((pollThenSleep w c tr)^[i] s).clock < Minute * 5 ∧
      ∃ m t, c.PollResults w tr ((pollThenSleep w c tr)^[i] s) = .returned m none t ∧
        m.State ≠ "completed" ∧ m.State ≠ "error") →
    waitLoop w c tr start (fuel + n) s =
      waitLoop w c tr start fuel ((pollThenSleep w c tr)^[n] s) := by
  induction n with
  | zero => intro fuel s _; rfl
  | succ n ih =>
    intro fuel s h
    obtain ⟨hb, m, t, hp, h1, h2⟩ := h 0 (Nat.succ_pos n)
    rw [← Nat.add_assoc, waitLoop_continue w c tr start (fuel + n) s t m hb hp h1 h2,
      ih fuel (pollThenSleep w c tr s), Function.iterate_succ_apply]
    intro i hi
    have := h (i + 1) (Nat.succ_lt_succ hi)
    rwa [Function.iterate_succ_apply] at this

/-- Recording the call of `WaitForResults` changes no count of polls or sleeps
and leaves the clock alone. -/
theorem pollStart_zero (w : World) (c : Client) (tr : TestRefference) (s : St) :
    (pollStart w c tr s 0).clock = s.clock ∧ (pollStart w c tr s 0).polls = s.polls ∧
    (pollStart w c tr s 0).sleeps = s.sleeps ∧ (pollStart w c tr s 0).sends = s.sends := by
  simp [pollStart, St.record, St.polls, St.sleeps, List.countP_append, Event.isPoll,
    Event.isSleep]

/-- At the start of poll `i + 1`, `i` seconds or more have gone by, and `i`
polls and `i` sleeps have been made. -/
theorem pollStart_st (w : World) (c : Client) (tr : TestRefference) (s : St) (i : Nat) :
    s.clock + i * Second ≤ (pollStart w c tr s i).clock ∧
    (pollStart w c tr s i).polls = s.polls + i ∧
    (pollStart w c tr s i).sleeps = s.sleeps + i := by
  obtain ⟨h1, h2, h3⟩ := rounds_st w c tr i (s.record (.callWaitForResults tr.TestID))
  obtain ⟨z1, z2, z3, -⟩ := pollStart_zero w c tr s
  simp only [pollStart, Function.iterate_zero, id_eq] at z1 z2 z3
  rw [z1] at h1
  rw [z2] at h2
  rw [z3] at h3
  exact ⟨h1, h2, h3⟩

/-- A poll that starts within the budget is one of the first 300. -/
theorem pollStart_lt_300 (w : World) (c : Client) (tr : TestRefference) (s : St) (k : Nat)
    (h : Since s.clock (pollStart w c tr s k).clock < Minute * 5) : k < 300 := by
  rw [Since_lt_iff] at h
  have h1 := (pollStart_st w c tr s k).1
  have h2 : k * Second < 300 * Second := by
    have : Minute * 5 = 300 * Second := by decide
    omega
  exact Nat.lt_of_mul_lt_mul_right h2

/-- If the first `k` polls are all non-terminal and poll `k + 1` starts within
the budget, the call is the loop entered at the start of poll `k + 1`, fuel
left. -/
theorem WaitForResults_reaches (w : World) (c : Client) (tr : TestRefference) (s : St)
    (k : Nat)
    (hpending : ∀ i, i < k → ∃ mi ti,
      c.PollResults w tr (pollStart w c tr s i) = .returned mi none ti ∧
        mi.State ≠ "completed" ∧ mi.State ≠ "error")
    (hbudget : Since s.clock (pollStart w c tr s k).clock < Minute * 5) :
    c.WaitForResults w tr s =
      waitLoop w c tr s.clock (300 - k + 1) (pollStart w c tr s k) := by
  have hk := pollStart_lt_300 w c tr s k hbudget
  have hfuel : waitFuel = (300 - k + 1) + k := by
    unfold waitFuel
    omega
  have hclock : (s.record (.callWaitForResults tr.TestID)).clock = s.clock := rfl
  unfold Client.WaitForResults
  simp only [hclock]
  rw [hfuel, waitLoop_rounds w c tr s.clock k (300 - k + 1)]
  · rfl
  · intro i hi
    refine ⟨?_, hpending i hi⟩
    have hmono := rounds_clock_mono w c tr (s.record (.callWaitForResults tr.TestID)) i k
      (Nat.le_of_lt hi)
    rw [Since_lt_iff] at hbudget ⊢
    unfold pollStart at hbudget
    omega

/-- C1: if the first `k` polls of a call succeed with a state other than
"completed" and "error", poll `k + 1` starts before five minutes have elapsed
and succeeds with state "completed" or "error", then `WaitForResults` returns
exactly the snapshot of poll `k + 1` with a nil error, in the state in which
that poll returned, after `k + 1` calls of `PollResults` and `k` sleeps (none
when `k = 0`). -/
theorem WaitForResults_returns_terminal_snapshot (w : World) (c : Client)
    (tr : TestRefference) (s : St) (k : Nat) (m : TestModel) (t : St)
    (hpending : ∀ i, i < k → ∃ mi ti,
      c.PollResults w tr (pollStart w c tr s i) = .returned mi none ti ∧
        mi.State ≠ "completed" ∧ mi.State ≠ "error")
    (hbudget : Since s.clock (pollStart w c tr s k).clock < Minute * 5)
    (hpoll : c.PollResults w tr (pollStart w c tr s k) = .returned m none t)
    (hterminal : m.State = "completed" ∨ m.State = "error") :
    c.WaitForResults w tr s = some (.returned m none t) ∧
      t.polls = s.polls + (k + 1) ∧ t.sleeps = s.sleeps + k := by
  obtain ⟨-, p2, p3⟩ := PollResults_st w c tr (pollStart w c tr s k)
  obtain ⟨-, q2, q3⟩ := pollStart_st w c tr s k
  rw [hpoll] at p2 p3
  simp only [Outcome.st] at p2 p3
  refine ⟨?_, by omega, by omega⟩
  rw [WaitForResults_reaches w c tr s k hpending hbudget]
  exact waitLoop_done w c tr s.clock (300 - k) _ t m hbudget hpoll hterminal

/-- C3: if the first `k` polls of a call succeed with a non-terminal state and
poll `k + 1`, started within the budget, returns a non-nil error, then
`WaitForResults` returns what that poll returned, with that same error, in the
state in which the poll returned: `k + 1` calls of `PollResults` and `k` sleeps
have been made, so the failed poll is not repeated and no sleep follows it. -/
theorem WaitForResults_propagates_poll_error (w : World) (c : Client)
    (tr : TestRefference) (s : St) (k : Nat) (m : TestModel) (e : GoError) (t : St)
    (hpending : ∀ i, i < k → ∃ mi ti,
      c.PollResults w tr (pollStart w c tr s i) = .returned mi none ti ∧
        mi.State ≠ "completed" ∧ mi.State ≠ "error")
    (hbudget : Since s.clock (pollStart w c tr s k).clock < Minute * 5)
    (hpoll : c.PollResults w tr (pollStart w c tr s k) = .returned m (some e) t) :
    c.WaitForResults w tr s = some (.returned m (some e) t) ∧
      t.polls = s.polls + (k + 1) ∧ t.sleeps = s.sleeps + k := by
  obtain ⟨-, p2, p3⟩ := PollResults_st w c tr (pollStart w c tr s k)
  obtain ⟨-, q2, q3⟩ := pollStart_st w c tr s k
  rw [hpoll] at p2 p3
  simp only [Outcome.st] at p2 p3
  refine ⟨?_, by omega, by omega⟩
  rw [WaitForResults_reaches w c tr s k hpending hbudget]
  exact waitLoop_fail w c tr s.clock (300 - k) _ t m e hbudget hpoll

/-- If every poll that starts within the budget succeeds with a non-terminal
state, the call gives up with the timeout error and a zero-valued model at the
start of what would be poll `n + 1`, for some `n` between 1 and 300: the first
`n` for which the budget has run out. -/
theorem WaitForResults_gives_up (w : World) (c : Client) (tr : TestRefference) (s : St)
    (h : ∀ i, Since s.clock (pollStart w c tr s i).clock < Minute * 5 → ∃ mi ti,
      c.PollResults w tr (pollStart w c tr s i) = .returned mi none ti ∧
        mi.State ≠ "completed" ∧ mi.State ≠ "error") :
    ∃ n, 1 ≤ n ∧ n ≤ 300 ∧
      (∀ i, i < n → Since s.clock (pollStart w c tr s i).clock < Minute * 5) ∧
      ¬ Since s.clock (pollStart w c tr s n).clock < Minute * 5 ∧
      c.WaitForResults w tr s =
        some (.returned TestModel.zero (some timeoutError) (pollStart w c tr s n)) := by
  have h300 : ¬ Since s.clock (pollStart w c tr s 300).clock < Minute * 5 := by
    rw [Since_lt_iff]
    have h1 := (pollStart_st w c tr s 300).1
    have : Minute * 5 = 300 * Second := by decide
    omega
  have hex : ∃ n, ¬ Since s.clock (pollStart w c tr s n).clock < Minute * 5 := ⟨300, h300⟩
  classical
  have hn := Nat.find_spec hex
  have hmin : ∀ i, i < Nat.find hex → Since s.clock (pollStart w c tr s i).clock < Minute * 5 :=
    fun i hi => not_not.mp (Nat.find_min hex hi)
  have hle : Nat.find hex ≤ 300 := Nat.find_min' hex h300
  have hpos : 1 ≤ Nat.find hex := by
    rcases Nat.eq_zero_or_pos (Nat.find hex) with h0 | h0
    · exfalso
      rw [h0, Since_lt_iff, (pollStart_zero w c tr s).1] at hn
      exact hn (by simp [Minute, Second])
    · exact h0
  refine ⟨Nat.find hex, hpos, hle, hmin, hn, ?_⟩
  have hfuel : waitFuel = (300 - Nat.find hex + 1) + Nat.find hex := by
    unfold waitFuel
    omega
  have hclock : (s.record (.callWaitForResults tr.TestID)).clock = s.clock := rfl
  unfold Client.WaitForResults
  simp only [hclock]
  rw [hfuel, waitLoop_rounds w c tr s.clock (Nat.find hex) (300 - Nat.find hex + 1)]
  · exact waitLoop_exit w c tr s.clock (300 - Nat.find hex) _ hn
  · intro i hi
    exact ⟨hmin i hi, h i (hmin i hi)⟩

/-- C2: if every poll that starts before five minutes have elapsed succeeds
with a state other than "completed" and "error", then `WaitForResults` returns
the timeout error together with the zero-valued `TestModel`, not a polled
snapshot. -/
theorem WaitForResults_timeout_returns_zero_model (w : World) (c : Client)
    (tr : TestRefference) (s : St)
    (h : ∀ i, Since s.clock (pollStart w c tr s i).clock < Minute * 5 → ∃ mi ti,
      c.PollResults w tr (pollStart w c tr s i) = .returned mi none ti ∧
        mi.State ≠ "completed" ∧ mi.State ≠ "error") :
    ∃ t, c.WaitForResults w tr s =
      some (.returned TestModel.zero
        (some (.errorString "Waited for results for too long. Gave up.")) t) := by
  obtain ⟨n, -, -, -, -, hw⟩ := WaitForResults_gives_up w c tr s h
  exact ⟨_, hw⟩

/-- The elapsed time when the loop gives up: either it gives up at once, or
the last pass started within the budget and was followed by one sleep. -/
theorem waitLoop_timeout_clock (w : World) (c : Client) (tr : TestRefference) (start : Nat)
    (fuel : Nat) : ∀ (s : St) (r : TestModel) (t : St),
    waitLoop w c tr start fuel s = some (.returned r (some timeoutError) t) →
    (t = s ∧ ¬ Since start s.clock < Minute * 5) ∨
    (s.sends < t.sends ∧ Minute * 5 ≤ t.clock - start ∧
      t.clock - start < Minute * 5 + Second + (w.Do (t.sends - 1) (pollRequest c tr)).took) := by
  induction fuel with
  | zero => intro s r t h; simp [waitLoop] at h
  | succ fuel ih =>
    intro s r t h
    by_cases hb : Since start s.clock < Minute * 5
    · right
      cases hp : c.PollResults w tr s with
      | panicked s1 => simp [waitLoop, hb, hp] at h
      | returned m err s1 =>
        obtain ⟨hc, hs, hne⟩ := PollResults_returned w c tr s s1 m err hp
        cases err with
        | some e =>
          simp only [waitLoop, hb, hp, if_true, Option.some.injEq, Outcome.returned.injEq] at h
          exact absurd (by rw [h.2.1]) hne
        | none =>
          by_cases hm : (m.State == "completed" || m.State == "error") = true
          · simp [waitLoop, hb, hp, hm] at h
          · simp only [waitLoop, hb, hp, if_true, hm] at h
            have hb2 := (Since_lt_iff start s.clock).mp hb
            rcases ih (Sleep (1 * Second) s1) r t h with ⟨rfl, hout⟩ | ⟨k1, k2, k3⟩
            · rw [Since_lt_iff] at hout
              simp only [Sleep, St.record, one_mul] at hout ⊢
              rw [hs, Nat.add_sub_cancel, hc] at *
              omega
            · simp only [Sleep, St.record] at k1
              exact ⟨by omega, k2, k3⟩
    · left
      simp only [waitLoop, hb, if_false, Option.some.injEq, Outcome.returned.injEq] at h
      exact ⟨h.2.2.symm, hb⟩

/-- C7 (amended): when `WaitForResults` returns the timeout error, the time
elapsed since the call is five minutes or more, and less than five minutes plus
one second plus the time the last exchange (that of the last poll) took; so if
that last exchange took no time, the elapsed time is at most five minutes plus
one second. -/
theorem WaitForResults_timeout_elapsed (w : World) (c : Client) (tr : TestRefference)
    (s : St) (r : TestModel) (t : St)
    (h : c.WaitForResults w tr s = some (.returned r (some timeoutError) t)) :
    Minute * 5 ≤ t.clock - s.clock ∧
      t.clock - s.clock <
        Minute * 5 + 1 * Second + (w.Do (t.sends - 1) (pollRequest c tr)).took ∧
      ((w.Do (t.sends - 1) (pollRequest c tr)).took = 0 →
        t.clock - s.clock ≤ Minute * 5 + 1 * Second) := by
  unfold Client.WaitForResults at h
  rcases waitLoop_timeout_clock w c tr _ waitFuel _ r t h with ⟨-, hout⟩ | ⟨-, h2, h3⟩
  · exfalso
    apply hout
    rw [Since_lt_iff]
    simp [Minute, Second]
  · simp only [St.record] at h2 h3
    rw [one_mul]
    refine ⟨h2, h3, ?_⟩
    intro hzero
    rw [hzero] at h3
    omega

/-- More fuel does not change a result the loop has reached. -/
theorem waitLoop_fuel_mono (w : World) (c : Client) (tr : TestRefference) (start : Nat)
    (fuel : Nat) : ∀ (s : St) (o : Outcome TestModel),
    waitLoop w c tr start fuel s = some o → waitLoop w c tr start (fuel + 1) s = some o := by
  induction fuel with
  | zero => intro s o h; simp [waitLoop] at h
  | succ fuel ih =>
    intro s o h
    rw [waitLoop] at h ⊢
    by_cases hb : Since start s.clock < Minute * 5
    · simp only [hb, if_true] at h ⊢
      cases hp : c.PollResults w tr s with
      | panicked s1 => simpa [hp] using h
      | returned m err s1 =>
        cases err with
        | some e => simpa [hp] using h
        | none =>
          simp only [hp] at h ⊢
          by_cases hm : (m.State == "completed" || m.State == "error") = true
          · simpa [hm] using h
          · simp only [hm] at h ⊢
            exact ih _ o h
    · simpa [hb] using h

/-- The loop ends within the fuel once the fuel covers the seconds left of the
budget. -/
theorem waitLoop_total (w : World) (c : Client) (tr : TestRefference) (start : Nat)
    (fuel : Nat) : ∀ (s : St), start ≤ s.clock →
    Minute * 5 ≤ (s.clock - start) + fuel * Second →
    ∃ o, waitLoop w c tr start (fuel + 1) s = some o := by
  induction fuel with
  | zero =>
    intro s _ h
    refine ⟨_, waitLoop_exit w c tr start 0 s ?_⟩
    rw [Since_lt_iff]
    omega
  | succ fuel ih =>
    intro s hs h
    by_cases hb : Since start s.clock < Minute * 5
    · cases hp : c.PollResults w tr s with
      | panicked s1 => exact ⟨.panicked s1, by simp [waitLoop, hb, hp]⟩
      | returned m err s1 =>
        cases err with
        | some e => exact ⟨_, waitLoop_fail w c tr start (fuel + 1) s s1 m e hb hp⟩
        | none =>
          by_cases hm : (m.State == "completed" || m.State == "error") = true
          · exact ⟨.returned m none s1, by simp [waitLoop, hb, hp, hm]⟩
          · have hclock := (PollResults_st w c tr s).1
            rw [hp] at hclock
            simp only [Outcome.st] at hclock
            have hnext : ∃ o, waitLoop w c tr start (fuel + 1) (Sleep (1 * Second) s1) = some o := by
              apply ih
              · simp only [Sleep, St.record]
                omega
              · simp only [Sleep, St.record, one_mul]
                rw [Nat.succ_mul] at h
                omega
            obtain ⟨o, ho⟩ := hnext
            exact ⟨o, by simpa [waitLoop, hb, hp, hm] using ho⟩
    · exact ⟨_, waitLoop_exit w c tr start (fuel + 1) s hb⟩

/-- Whatever the world does, `WaitForResults` ends: the fuel of the loop never
runs out. -/
theorem WaitForResults_total (w : World) (c : Client) (tr : TestRefference) (s : St) :
    ∃ o, c.WaitForResults w tr s = some o := by
  unfold Client.WaitForResults waitFuel
  apply waitLoop_total w c tr _ 300
  · exact Nat.le_refl _
  · simp [Minute, Second]

/-! ## Submission and single polls -/

/-- C4: when the submission request is built and sent, `Test` returns the
decoded reference, whatever its fields hold; the returned error is non-nil
exactly when the decoded `Error` field is non-empty, and it is then the error
`errors.New` makes of that field, whose message is the field. -/
theorem Test_error_iff_decoded_error (w : World) (c : Client) (siteURL : String) (s : St)
    (resp : Response)
    (hbuilt : w.newRequest "POST" (c.baseURL ++ "test") = true)
    (hsent : (w.Do s.sends (testRequest w c siteURL)).result = .ok resp) :
    ∃ err t,
      c.Test w siteURL s =
        .returned (Unmarshal w.checkValid w.decodeRefference resp.body TestRefference.zero)
          err t ∧
      (err ≠ none ↔
        (Unmarshal w.checkValid w.decodeRefference resp.body TestRefference.zero).Error ≠ "") ∧
      ((Unmarshal w.checkValid w.decodeRefference resp.body TestRefference.zero).Error ≠ "" →
        err = some (.errorString
          (Unmarshal w.checkValid w.decodeRefference resp.body TestRefference.zero).Error)) := by
  have hsent2 : (w.Do (s.record (.callTest siteURL)).sends (testRequest w c siteURL)).result =
      .ok resp := hsent
  by_cases herr :
      (Unmarshal w.checkValid w.decodeRefference resp.body TestRefference.zero).Error = ""
  · refine ⟨none, (doExchange w (testRequest w c siteURL)
      (s.record (.callTest siteURL))).2.record .readAll, ?_, ?_, ?_⟩
    · simp only [Client.Test, doExchange, hbuilt, if_true, hsent2]
      simp [herr]
    · simp [herr]
    · intro h
      exact absurd herr h
  · refine ⟨some (.errorString
      (Unmarshal w.checkValid w.decodeRefference resp.body TestRefference.zero).Error),
      (doExchange w (testRequest w c siteURL) (s.record (.callTest siteURL))).2.record .readAll,
      ?_, ?_, ?_⟩
    · simp only [Client.Test, doExchange, hbuilt, if_true, hsent2]
      simp [herr]
    · simp [herr]
    · intro _
      rfl

/-- C5: if `Test` returns a non-nil error, `TestAndWaitForResults` returns
that error with a zero-valued model in the state `Test` ended in, in which no
call of `PollResults` or `WaitForResults` has been added; if `Test` returns a
nil error, `TestAndWaitForResults` is `WaitForResults` on the reference `Test`
returned. -/
theorem TestAndWaitForResults_composes (w : World) (c : Client) (url : String) (s : St) :
    (∀ tr e t, c.Test w url s = .returned tr (some e) t →
      c.TestAndWaitForResults w url s = some (.returned TestModel.zero (some e) t) ∧
        t.polls = s.polls ∧ t.waits = s.waits) ∧
    (∀ tr t, c.Test w url s = .returned tr none t →
      c.TestAndWaitForResults w url s = c.WaitForResults w tr t) := by
  constructor
  · intro tr e t h
    refine ⟨by simp [Client.TestAndWaitForResults, h], ?_⟩
    unfold Client.Test doExchange at h
    by_cases hreq : w.newRequest "POST" (c.baseURL ++ "test") = true
    · cases hres : (w.Do (s.record (.callTest url)).sends (testRequest w c url)).result with
      | error u =>
        simp only [hreq, if_true, hres, Outcome.returned.injEq] at h
        rw [← h.2.2]
        simp [St.polls, St.waits, St.record, List.countP_append, Event.isPoll, Event.isWait]
      | ok resp =>
        simp only [hreq, if_true, hres] at h
        split at h <;> simp only [Outcome.returned.injEq] at h <;> rw [← h.2.2] <;>
          simp [St.polls, St.waits, St.record, List.countP_append, Event.isPoll, Event.isWait]
    · simp [hreq] at h
  · intro tr t h
    simp [Client.TestAndWaitForResults, h]

/-- C9: when the poll request is built and sent and the body is read to its
end, a body that is not well-formed JSON makes `PollResults` return the
zero-valued `TestModel` with a nil error. -/
theorem PollResults_malformed_body_gives_zero_model (w : World) (c : Client)
    (tr : TestRefference) (s : St) (resp : Response)
    (hbuilt : w.newRequest "GET" (c.baseURL ++ "test/" ++ tr.TestID) = true)
    (hsent : (w.Do s.sends (pollRequest c tr)).result = .ok resp)
    (_hread : resp.readErr = none)
    (hmalformed : w.checkValid resp.body = false) :
    ∃ t, c.PollResults w tr s = .returned TestModel.zero none t ∧
      TestModel.zero.State = "" ∧ TestModel.zero.Error = "" ∧
      TestModel.zero.Results = TestResults.zero ∧
      TestModel.zero.Resources = TestResources.zero := by
  have hsent2 : (w.Do (s.record (.callPollResults tr.TestID)).sends (pollRequest c tr)).result =
      .ok resp := hsent
  refine ⟨(doExchange w (pollRequest c tr)
    (s.record (.callPollResults tr.TestID))).2.record .readAll, ?_, rfl, rfl, rfl, rfl⟩
  simp [Client.PollResults, doExchange, hbuilt, hsent2, Unmarshal, hmalformed]

/-- C6 (the code at the failing input): when the request is sent and reading
the response body fails, `PollResults` still returns a nil error, and so does
`Test` unless the bytes that were read decode to a non-empty `Error` field. -/
theorem read_failure_returns_nil_error (w : World) (c : Client) (tr : TestRefference)
    (siteURL : String) (s : St) :
    (∀ resp e, w.newRequest "GET" (c.baseURL ++ "test/" ++ tr.TestID) = true →
      (w.Do s.sends (pollRequest c tr)).result = .ok resp → resp.readErr = some e →
      ∃ t, c.PollResults w tr s =
        .returned (Unmarshal w.checkValid w.decodeModel resp.body TestModel.zero) none t) ∧
    (∀ resp e, w.newRequest "POST" (c.baseURL ++ "test") = true →
      (w.Do s.sends (testRequest w c siteURL)).result = .ok resp → resp.readErr = some e →
      (Unmarshal w.checkValid w.decodeRefference resp.body TestRefference.zero).Error = "" →
      ∃ t, c.Test w siteURL s =
        .returned (Unmarshal w.checkValid w.decodeRefference resp.body TestRefference.zero)
          none t) := by
  constructor
  · intro resp e hbuilt hsent _
    have hsent2 : (w.Do (s.record (.callPollResults tr.TestID)).sends
        (pollRequest c tr)).result = .ok resp := hsent
    refine ⟨(doExchange w (pollRequest c tr)
      (s.record (.callPollResults tr.TestID))).2.record .readAll, ?_⟩
    simp [Client.PollResults, doExchange, hbuilt, hsent2]
  · intro resp e hbuilt hsent _ herr
    have hsent2 : (w.Do (s.record (.callTest siteURL)).sends
        (testRequest w c siteURL)).result = .ok resp := hsent
    refine ⟨(doExchange w (testRequest w c siteURL)
      (s.record (.callTest siteURL))).2.record .readAll, ?_⟩
    simp only [Client.Test, doExchange, hbuilt, if_true, hsent2]
    simp [herr]

/-- A URL that ends in a string with a control character has a control
character. -/
theorem stringContainsCTLByte_append (a b : String) (h : stringContainsCTLByte b = true) :
    stringContainsCTLByte (a ++ b) = true := by
  unfold stringContainsCTLByte at h ⊢
  rw [String.toList, String.data_append, List.any_append, Bool.or_eq_true]
  exact Or.inr h

/-- C10 (the code at the failing input): where `http.NewRequest` rejects a URL
with a control character, as `url.Parse` does, a `TestID` holding one makes
`PollResults` on a client from `GetClient` panic: the nil request reaches
`SetBasicAuth`, and no request is sent. -/
theorem PollResults_nil_request_panics (w : World) (username password : String)
    (tr : TestRefference) (s : St)
    (hparse : ∀ method url, stringContainsCTLByte url = true → w.newRequest method url = false)
    (hctl : stringContainsCTLByte tr.TestID = true) :
    (GetClient username password).PollResults w tr s =
      .panicked (s.record (.callPollResults tr.TestID)) := by
  have hnil : w.newRequest "GET" ((GetClient username password).baseURL ++ "test/" ++ tr.TestID)
      = false := hparse _ _ (stringContainsCTLByte_append _ _ hctl)
  simp [Client.PollResults, hnil]

/-! ## Concrete runs -/

/-- Where every exchange finds the test in progress, every poll succeeds with
state "processing". -/
theorem processingWorld_poll (took : Nat) (s : St) :
    ∃ t, exampleClient.PollResults (processingWorld took) exampleRef s =
      .returned { TestModel.zero with State := "processing" } none t := by
  have hreq : (processingWorld took).newRequest "GET"
      (exampleClient.baseURL ++ "test/" ++ exampleRef.TestID) = true := rfl
  refine ⟨(doExchange (processingWorld took) (pollRequest exampleClient exampleRef)
    (s.record (.callPollResults exampleRef.TestID))).2.record .readAll, ?_⟩
  simp only [Client.PollResults, hreq, if_true]
  rfl

/-- C1 at a concrete run: two polls in progress, the third completed. -/
theorem WaitForResults_returns_terminal_snapshot_witness :
    ∃ t, exampleClient.WaitForResults twoPendingWorld exampleRef St.init =
        some (.returned { TestModel.zero with State := "completed" } none t) ∧
      t.polls = St.init.polls + (2 + 1) ∧ t.sleeps = St.init.sleeps + 2 :=
  ⟨_, WaitForResults_returns_terminal_snapshot twoPendingWorld exampleClient exampleRef
    St.init 2 _ _
    (fun i hi => by
      interval_cases i
      · exact ⟨_, _, rfl, by decide, by decide⟩
      · exact ⟨_, _, rfl, by decide, by decide⟩)
    (by decide) rfl (by decide)⟩

/-- C3 at a concrete run: one poll queued, the second cannot be sent. -/
theorem WaitForResults_propagates_poll_error_witness :
    ∃ t, exampleClient.WaitForResults failingWorld exampleRef St.init =
        some (.returned TestModel.zero
          (some (.urlError { Op := "Get", URL := "", Err := "connection refused" })) t) ∧
      t.polls = St.init.polls + (1 + 1) ∧ t.sleeps = St.init.sleeps + 1 :=
  ⟨_, WaitForResults_propagates_poll_error failingWorld exampleClient exampleRef
    St.init 1 _ _ _
    (fun i hi => by
      interval_cases i
      exact ⟨_, _, rfl, by decide, by decide⟩)
    (by decide) rfl⟩

/-- C2 at a concrete run: the slow world, where the budget runs out during the first poll. -/
theorem WaitForResults_timeout_returns_zero_model_witness :
    ∃ t, exampleClient.WaitForResults slowWorld exampleRef St.init =
      some (.returned TestModel.zero
        (some (.errorString "Waited for results for too long. Gave up.")) t) :=
  WaitForResults_timeout_returns_zero_model slowWorld exampleClient exampleRef St.init
    fun i _ => by
      obtain ⟨t, ht⟩ := processingWorld_poll _ (pollStart slowWorld exampleClient exampleRef St.init i)
      exact ⟨_, t, ht, by decide, by decide⟩

/-- C7 (as stated, refuted): in the slow world the single poll takes 400
seconds, so the timeout error is returned 401 seconds after the call, later
than five minutes and one second. -/
theorem WaitForResults_timeout_elapsed_counterexample :
    ∃ r t, exampleClient.WaitForResults slowWorld exampleRef St.init =
        some (.returned r (some timeoutError) t) ∧
      t.clock - St.init.clock = 401 * Second ∧
      ¬ t.clock - St.init.clock ≤ Minute * 5 + 1 * Second :=
  ⟨_, _, rfl, by decide, by decide⟩

/-- C7 (amended) at a concrete run: the slow world, where the timeout error is
returned 401 seconds after the call and the last poll took 400 seconds. -/
theorem WaitForResults_timeout_elapsed_witness :
    ∃ r t, exampleClient.WaitForResults slowWorld exampleRef St.init =
        some (.returned r (some timeoutError) t) ∧
      Minute * 5 ≤ t.clock - St.init.clock ∧
      t.clock - St.init.clock < Minute * 5 + 1 * Second +
        (slowWorld.Do (t.sends - 1) (pollRequest exampleClient exampleRef)).took ∧
      ((slowWorld.Do (t.sends - 1) (pollRequest exampleClient exampleRef)).took = 0 →
        t.clock - St.init.clock ≤ Minute * 5 + 1 * Second) :=
  ⟨_, _, rfl,
    WaitForResults_timeout_elapsed slowWorld exampleClient exampleRef St.init _ _ rfl⟩

/-- C4 at a concrete run: the remote service answers with an error text. -/
theorem Test_error_iff_decoded_error_witness :
    ∃ err t,
      exampleClient.Test quotaWorld "https://example.com/" St.init =
        .returned (Unmarshal quotaWorld.checkValid quotaWorld.decodeRefference
          "Eno credits left" TestRefference.zero) err t ∧
      (err ≠ none ↔
        (Unmarshal quotaWorld.checkValid quotaWorld.decodeRefference
          "Eno credits left" TestRefference.zero).Error ≠ "") ∧
      ((Unmarshal quotaWorld.checkValid quotaWorld.decodeRefference
          "Eno credits left" TestRefference.zero).Error ≠ "" →
        err = some (.errorString
          (Unmarshal quotaWorld.checkValid quotaWorld.decodeRefference
            "Eno credits left" TestRefference.zero).Error)) :=
  Test_error_iff_decoded_error quotaWorld exampleClient "https://example.com/" St.init
    { body := "Eno credits left", readErr := none } (by decide) rfl

/-- C5 at concrete runs: a refused submission, and an accepted one. -/
theorem TestAndWaitForResults_composes_witness :
    (∃ t, exampleClient.TestAndWaitForResults quotaWorld "https://example.com/" St.init =
        some (.returned TestModel.zero (some (.errorString "no credits left")) t) ∧
      t.polls = St.init.polls ∧ t.waits = St.init.waits) ∧
    (∃ tr t, exampleClient.Test acceptedWorld "https://example.com/" St.init =
        .returned tr none t ∧
      exampleClient.TestAndWaitForResults acceptedWorld "https://example.com/" St.init =
        exampleClient.WaitForResults acceptedWorld tr t) :=
  ⟨⟨_, (TestAndWaitForResults_composes quotaWorld exampleClient "https://example.com/"
      St.init).1 _ _ _ rfl⟩,
    ⟨_, _, rfl, (TestAndWaitForResults_composes acceptedWorld exampleClient
      "https://example.com/" St.init).2 _ _ rfl⟩⟩

/-- C9 at a concrete run: an empty body. -/
theorem PollResults_malformed_body_gives_zero_model_witness :
    ∃ t, exampleClient.PollResults emptyBodyWorld exampleRef St.init =
        .returned TestModel.zero none t ∧
      TestModel.zero.State = "" ∧ TestModel.zero.Error = "" ∧
      TestModel.zero.Results = TestResults.zero ∧
      TestModel.zero.Resources = TestResources.zero :=
  PollResults_malformed_body_gives_zero_model emptyBodyWorld exampleClient exampleRef St.init
    { body := "", readErr := none } (by decide) rfl rfl (by decide)

/-- C6 at the failing input: the body breaks off while it is read. -/
theorem read_failure_returns_nil_error_witness :
    (∃ t, exampleClient.PollResults truncatedWorld exampleRef St.init =
      .returned TestModel.zero none t) ∧
    (∃ t, exampleClient.Test truncatedWorld "https://example.com/" St.init =
      .returned TestRefference.zero none t) :=
  ⟨(read_failure_returns_nil_error truncatedWorld exampleClient exampleRef
      "https://example.com/" St.init).1 { body := "", readErr := some "unexpected EOF" }
      "unexpected EOF" (by decide) rfl rfl,
    (read_failure_returns_nil_error truncatedWorld exampleClient exampleRef
      "https://example.com/" St.init).2 { body := "", readErr := some "unexpected EOF" }
      "unexpected EOF" (by decide) rfl rfl (by decide)⟩

/-- C10 at the failing input: a `TestID` that is a line feed. -/
theorem PollResults_nil_request_panics_witness :
    (GetClient "user" "key").PollResults emptyBodyWorld
        { TestRefference.zero with TestID := "\n" } St.init =
      .panicked (St.init.record (.callPollResults "\n")) :=
  PollResults_nil_request_panics emptyBodyWorld "user" "key"
    { TestRefference.zero with TestID := "\n" } St.init
    (fun _ url h => by simp [emptyBodyWorld, scriptedWorld, h]) (by decide)

end Gogtmetrix
